import Mathlib

/-!
Verification of the Jal-Drishti frame scheduler, video source and ML engine.

The development is a shallow embedding of the Python sources:
  backend/app/scheduler/frame_scheduler.py  (FrameScheduler.run)
  backend/app/video/video_reader.py         (RawVideoSource.read)
  backend/app/main.py                       (startup wiring, line 181)
  ml-engine/core/pipeline.py                (JalDrishtiEngine.validate_frame / infer)
  backend/app/services/ml_service.py        (MLService.run_inference)

Wall-clock time is modelled exactly with rationals.  The scheduler loop is a
pure step function over an explicit state; callbacks are modelled as emitted
events (they are assumed not to raise, matching their fire-and-forget role).
The blocking call to ml_module.run_inference advances the model clock by the
duration of the call, which is how the synchronous-inference behaviour of the
code becomes observable in delivery timestamps.
-/

/-- Outcome of one blocking `ml_module.run_inference` call as observed by the
scheduler: either a result payload or a raised exception, each taking a given
wall-clock duration. -/
inductive MLOutcome where
  | success (duration : ℚ) (payload : Nat)
  | failure (duration : ℚ) (reason : String)
  deriving DecidableEq

/-- Wall-clock time an inference call takes, in either outcome. -/
def MLOutcome.duration : MLOutcome → ℚ
  | .success d _ => d
  | .failure d _ => d

/-- One frame yielded by `self.video_source.read()`: its frame_id, the
wall-clock time that elapses acquiring it (time between the previous loop
iteration and this yield), and what the ML call would do on it. -/
structure FrameInput where
  fid : Nat
  readDelay : ℚ
  ml : MLOutcome
  deriving DecidableEq

/-- Constructor arguments of FrameScheduler that the loop reads
(frame_scheduler.py lines 4 to 24).  Callbacks are modelled by flags saying
whether they are configured. -/
structure SchedulerConfig where
  targetFps : Nat
  hasMl : Bool
  rawCb : Bool
  resCb : Bool
  simDelay : ℚ
  deriving DecidableEq

/-- frame_interval = 1.0 / target_fps (line 20). -/
def SchedulerConfig.frameInterval (c : SchedulerConfig) : ℚ :=
  1 / (c.targetFps : ℚ)

/-- Status field of a system Result Envelope. -/
inductive SysStatus where
  | safeMode
  | recovered
  deriving DecidableEq

/-- Observable actions of one scheduler iteration: raw_callback invocations,
DROPPED_FROM_ML log events, inference calls, and result_callback envelopes. -/
inductive Event where
  | rawEmit (fid : Nat) (t : ℚ)
  | droppedFromMl (fid : Nat)
  | mlCall (fid : Nat) (t : ℚ) (wasSafeMode : Bool)
  | sysEnvelope (status : SysStatus) (message : String)
  | dataEnvelope (fid : Nat) (payload : Nat)
  deriving DecidableEq

/-- Mutable loop state of FrameScheduler.run: the model clock (time.time()),
start_time, and the safe-mode fields set at lines 36 to 39. -/
structure SchedState where
  clock : ℚ
  startTime : ℚ
  inSafeMode : Bool
  safeModeReason : Option String
  lastRecoveryCheck : ℚ
  deriving DecidableEq

/-- self.recovery_interval = 5.0 (line 39). -/
def recoveryInterval : ℚ := 5

/-- Rendering of the reason inside the safe-mode skip message, matching the
Python f-string interpolation of an optional value. -/
def reasonText : Option String → String
  | some s => s
  | none => "None"

/-- current_time = time.time() sampled at line 55, after the frame arrives. -/
def arrivalTime (s : SchedState) (f : FrameInput) : ℚ :=
  s.clock + f.readDelay

/-- start_time after the frame_id == 0 realignment of lines 52 and 53. -/
def alignedStart (s : SchedState) (f : FrameInput) : ℚ :=
  if f.fid = 0 then arrivalTime s f else s.startTime

/-- drift = (current_time - start_time) - frame_id * frame_interval
(lines 60 to 64). -/
def driftOf (c : SchedulerConfig) (s : SchedState) (f : FrameInput) : ℚ :=
  (arrivalTime s f - alignedStart s f) - (f.fid : ℚ) * c.frameInterval

/-- Test at line 84: current_time - last_recovery_check >= recovery_interval. -/
def attemptDue (s : SchedState) (f : FrameInput) : Bool :=
  decide (recoveryInterval ≤ arrivalTime s f - s.lastRecoveryCheck)

/-- Lines 100 to 169: the ML processing block.  When hasMl and should_run_ml
hold, the blocking call runs: a success clears safe mode (lines 121 to 131)
and emits a data envelope (lines 134 to 147); a failure enters safe mode and
emits one safe_mode envelope only when not already in it (lines 149 to 165).
Otherwise the simulate_processing_delay fallback sleeps (lines 167 to 169).
The lrc argument is last_recovery_check as updated by the recovery gate. -/
def mlPhase (c : SchedulerConfig) (s : SchedState) (f : FrameInput)
    (lrc : ℚ) (shouldRunMl : Bool) : SchedState × List Event :=
  let t := arrivalTime s f
  let startTime := alignedStart s f
  if c.hasMl && shouldRunMl then
    match f.ml with
    | .success dur payload =>
        let s1 : SchedState :=
          { clock := t + dur, startTime := startTime, inSafeMode := false,
            safeModeReason := if s.inSafeMode then none else s.safeModeReason,
            lastRecoveryCheck := lrc }
        let recEvs : List Event :=
          if s.inSafeMode && c.resCb then
            [Event.sysEnvelope .recovered "System recovered"] else []
        let dataEvs : List Event :=
          if c.resCb then [Event.dataEnvelope f.fid payload] else []
        (s1, Event.mlCall f.fid t s.inSafeMode :: (recEvs ++ dataEvs))
    | .failure dur reason =>
        if s.inSafeMode then
          ({ clock := t + dur, startTime := startTime, inSafeMode := true,
             safeModeReason := s.safeModeReason, lastRecoveryCheck := lrc },
           [Event.mlCall f.fid t s.inSafeMode])
        else
          let failEvs : List Event :=
            if c.resCb then [Event.sysEnvelope .safeMode reason] else []
          ({ clock := t + dur, startTime := startTime, inSafeMode := true,
             safeModeReason := some reason, lastRecoveryCheck := t + dur },
           Event.mlCall f.fid t s.inSafeMode :: failEvs)
  else if 0 < c.simDelay then
    ({ s with clock := t + c.simDelay, startTime := startTime,
              lastRecoveryCheck := lrc }, [])
  else
    ({ s with clock := t, startTime := startTime,
              lastRecoveryCheck := lrc }, [])

/-- Lines 176 to 182: sleep until start_time + (frame_id + 1) * frame_interval
when that lies in the future. -/
def applyPacing (c : SchedulerConfig) (f : FrameInput) (s1 : SchedState) :
    SchedState :=
  let sleepDur := ((f.fid : ℚ) + 1) * c.frameInterval - (s1.clock - s1.startTime)
  if 0 < sleepDur then { s1 with clock := s1.clock + sleepDur } else s1

/-- Lines 75 to 98 plus 100 to 182: the processed branch for a frame that
passed the drift check.  The recovery gate of lines 82 to 98 decides
should_run_ml, updates last_recovery_check on a permitted attempt, and emits
the per-skipped-frame safe_mode envelope of lines 90 to 96. -/
def processEligible (c : SchedulerConfig) (s : SchedState) (f : FrameInput) :
    SchedState × List Event :=
  let t := arrivalTime s f
  let attempt := attemptDue s f
  let shouldRunMl := if s.inSafeMode then attempt else true
  let lrc := if s.inSafeMode && attempt then t else s.lastRecoveryCheck
  let skipEvs : List Event :=
    if s.inSafeMode && !attempt && c.resCb then
      [Event.sysEnvelope .safeMode
        ("System in Safe Mode: " ++ reasonText s.safeModeReason)]
    else []
  let r := mlPhase c s f lrc shouldRunMl
  (applyPacing c f r.1, skipEvs ++ r.2)

/-- One iteration of the for loop of FrameScheduler.run (lines 49 to 190).
The raw callback fires unconditionally before the drift check (lines 66 to
69); a frame whose drift exceeds frame_interval is dropped from ML only
(lines 71 to 74, the continue skips pacing and processing). -/
def stepFrame (c : SchedulerConfig) (s : SchedState) (f : FrameInput) :
    SchedState × List Event :=
  let rawEvs : List Event :=
    if c.rawCb then [Event.rawEmit f.fid (arrivalTime s f)] else []
  if c.frameInterval < driftOf c s f then
    ({ s with clock := arrivalTime s f, startTime := alignedStart s f },
     rawEvs ++ [Event.droppedFromMl f.fid])
  else
    let r := processEligible c s f
    (r.1, rawEvs ++ r.2)

/-- The whole loop over the frames the source yields. -/
def runFrames (c : SchedulerConfig) : SchedState → List FrameInput →
    SchedState × List Event
  | s, [] => (s, [])
  | s, f :: fs =>
      let r := stepFrame c s f
      let r2 := runFrames c r.1 fs
      (r2.1, r.2 ++ r2.2)

/-- Initial loop state of FrameScheduler.run at wall-clock time t0:
in_safe_mode = False, safe_mode_reason = None, last_recovery_check = 0.0
(lines 36 to 38), start_time = time.time() (line 41). -/
def initState (t0 : ℚ) : SchedState :=
  { clock := t0, startTime := t0, inSafeMode := false,
    safeModeReason := none, lastRecoveryCheck := 0 }

/-- A full run of FrameScheduler.run started at time t0. -/
def runScheduler (c : SchedulerConfig) (t0 : ℚ) (frames : List FrameInput) :
    SchedState × List Event :=
  runFrames c (initState t0) frames

/-- Frame ids handed to the raw callback, in emission order. -/
def rawIds (evs : List Event) : List Nat :=
  evs.filterMap fun e => match e with
    | .rawEmit fid _ => some fid
    | _ => none

/-- Raw callback invocations with their delivery times, in emission order. -/
def rawDeliveries (evs : List Event) : List (Nat × ℚ) :=
  evs.filterMap fun e => match e with
    | .rawEmit fid t => some (fid, t)
    | _ => none

/-- Start times of inference calls made while safe mode was active. -/
def safeCallTimes (evs : List Event) : List ℚ :=
  evs.filterMap fun e => match e with
    | .mlCall _ t true => some t
    | _ => none

/-- Number of system envelopes with the given status. -/
def sysCount (st : SysStatus) (evs : List Event) : Nat :=
  evs.countP fun e => match e with
    | .sysEnvelope s _ => decide (s = st)
    | _ => false

def cW : SchedulerConfig :=
  { targetFps := 1, hasMl := true, rawCb := true, resCb := true, simDelay := 0 }

def framesW2 : List FrameInput :=
  [⟨0, 0, .success 0 1⟩, ⟨1, 0, .failure 0 "E"⟩, ⟨2, 9, .success 0 1⟩]

/-- Frame ids logged as DROPPED_FROM_ML. -/
def dropIds (evs : List Event) : List Nat :=
  evs.filterMap fun e => match e with
    | .droppedFromMl i => some i
    | _ => none

/-- Inference calls with their start time and the safe-mode flag at call
time. -/
def mlCalls (evs : List Event) : List (Nat × ℚ × Bool) :=
  evs.filterMap fun e => match e with
    | .mlCall i t b => some (i, t, b)
    | _ => none

def fEntry : FrameInput := ⟨0, 0, .failure 0 "boom"⟩

def sRec : SchedState := ⟨6, 0, true, some "boom", 0⟩

def fRec : FrameInput := ⟨6, 0, .success 0 5⟩

def fFailB : FrameInput := ⟨6, 0, .failure 0 "B"⟩

def framesC9 : List FrameInput :=
  [⟨0, 0, .failure 0 "A"⟩, ⟨1, 0, .failure 0 "X"⟩, ⟨2, 0, .failure 0 "X"⟩,
   ⟨3, 0, .failure 0 "X"⟩, ⟨4, 0, .failure 0 "X"⟩, ⟨5, 0, .failure 0 "B"⟩]

def framesC1 : List FrameInput :=
  [⟨0, 0, .success 3 0⟩, ⟨1, 0, .success 0 0⟩]

/-- Parameter names accepted by FrameScheduler.__init__
(frame_scheduler.py lines 5 and 6), self excluded. -/
def frameSchedulerInitParams : List String :=
  ["video_source", "target_fps", "simulate_processing_delay", "ml_module",
   "result_callback", "raw_callback"]

/-- Keyword arguments of the FrameScheduler construction at main.py line 181
(the video source is passed positionally). -/
def startupSchedulerKwargs : List String :=
  ["target_fps", "ml_module", "result_callback", "raw_callback",
   "shutdown_event"]

/-- Python keyword-call semantics: a call is accepted only if every keyword
argument names a declared parameter; otherwise the call raises TypeError. -/
def kwCallAccepted (params kwargs : List String) : Bool :=
  kwargs.all fun k => params.contains k

/-- One cv2 capture read result (video_reader.py line 88): the ret flag and
the returned frame, with frame contents abstracted to a numeric payload. -/
structure CapRead where
  ret : Bool
  frame : Option Nat
  deriving DecidableEq

/-- The read loop of RawVideoSource.read with no stop request pending
(self._stop stays False): it breaks when ret is False (end of video, lines 90
to 92), skips None frames without advancing frame_id (lines 96 to 98), and
otherwise yields the frame with the current frame_id and increments it
(lines 114 to 116).  Timestamps are omitted: they do not affect the id
sequence. -/
def readLoop : List CapRead → Nat → List (Nat × Nat)
  | [], _ => []
  | r :: rest, fid =>
      if r.ret = false then []
      else
        match r.frame with
        | none => readLoop rest fid
        | some data => (data, fid) :: readLoop rest (fid + 1)

/-- RawVideoSource.read over the whole capture content, frame_id starting at
0 (line 77). -/
def RawVideoSource_read (cap : List CapRead) : List (Nat × Nat) :=
  readLoop cap 0

/-- A numpy array abstracted to its shape plus an abstract content tag;
size is the product of the dimensions, as in numpy. -/
structure NDArray where
  shape : List Nat
  data : Nat
  deriving DecidableEq

def NDArray.size (a : NDArray) : Nat := a.shape.prod

/-- States of the engine response (core/config.py constants). -/
inductive MLState where
  | SAFE_MODE
  | POTENTIAL_ANOMALY
  | CONFIRMED_THREAT
  deriving DecidableEq

/-- One detection entry of the response schema. -/
structure Detection where
  bbox : List Int
  confidence : ℚ
  label : String
  deriving DecidableEq

/-- The JSON response of JalDrishtiEngine.infer (timestamp and latency
omitted: they carry no information the claims inspect). -/
structure InferResponse where
  state : MLState
  max_confidence : ℚ
  detections : List Detection
  deriving DecidableEq

/-- JalDrishtiEngine.validate_frame (pipeline.py lines 91 to 101): the frame
validity gate, returning the validity flag and the failure message. -/
def validate_frame : Option NDArray → Bool × Option String
  | none => (false, some "Frame is None")
  | some a =>
      if a.size = 0 then (false, some "Empty frame")
      else if ¬ a.shape.length = 3 then (false, some "Invalid dimensions")
      else if ¬ a.shape.getD 2 0 = 3 then
        (false, some "Invalid channel count (Not RGB)")
      else (true, none)

/-- JalDrishtiEngine._build_safe_response (pipeline.py lines 240 to 246, the
later of the two definitions, which Python keeps). -/
def build_safe_response : InferResponse :=
  { state := .SAFE_MODE, max_confidence := 0, detections := [] }

/-- Outcome of the try block of infer, steps 2 to 7 (pipeline.py lines 127
to 234): either a response with the enhanced display frame, or a raised
exception. -/
inductive PipelineOutcome where
  | ok (resp : InferResponse) (enhanced : NDArray)
  | exc (msg : String)
  deriving DecidableEq

def PipelineOutcome.isExc : PipelineOutcome → Bool
  | .ok _ _ => false
  | .exc _ => true

/-- JalDrishtiEngine.infer (pipeline.py lines 112 to 238): an invalid frame
returns the safe response with the input frame unchanged (line 125); any
exception in the pipeline body is caught and also returns the safe response
with the input frame (lines 236 to 238); a successful body returns its
response and the enhanced display frame. -/
def JalDrishtiEngine_infer (frame : Option NDArray) (body : PipelineOutcome) :
    InferResponse × Option NDArray :=
  if (validate_frame frame).1 = false then (build_safe_response, frame)
  else
    match body with
    | .ok resp enhanced => (resp, some enhanced)
    | .exc _ => (build_safe_response, frame)

/-- MLService.run_inference (ml_service.py lines 63 to 101): raises
RuntimeError when the engine is still None after lazy initialization,
otherwise calls engine.infer and returns the response. -/
def MLService_run_inference (engine : Option Unit) (frame : Option NDArray)
    (body : PipelineOutcome) : Except String InferResponse :=
  match engine with
  | none => .error "Engine not initialized"
  | some _ => .ok (JalDrishtiEngine_infer frame body).1

/-! Theorems about the embedded system. -/

theorem stepFrame_drop {c : SchedulerConfig} {s : SchedState} {f : FrameInput}
    (hd : c.frameInterval < driftOf c s f) :
    stepFrame c s f =
      ({ s with clock := arrivalTime s f, startTime := alignedStart s f },
       (if c.rawCb then [Event.rawEmit f.fid (arrivalTime s f)] else []) ++
         [Event.droppedFromMl f.fid]) := by
  simp only [stepFrame]
  rw [if_pos hd]

theorem stepFrame_eligible {c : SchedulerConfig} {s : SchedState}
    {f : FrameInput} (hd : ¬ c.frameInterval < driftOf c s f) :
    stepFrame c s f =
      ((processEligible c s f).1,
       (if c.rawCb then [Event.rawEmit f.fid (arrivalTime s f)] else []) ++
         (processEligible c s f).2) := by
  simp only [stepFrame]
  rw [if_neg hd]

theorem processEligible_normal {c : SchedulerConfig} {s : SchedState}
    {f : FrameInput} (hsm : s.inSafeMode = false) :
    processEligible c s f =
      (applyPacing c f (mlPhase c s f s.lastRecoveryCheck true).1,
       (mlPhase c s f s.lastRecoveryCheck true).2) := by
  simp only [processEligible, hsm]
  simp

theorem processEligible_attempt {c : SchedulerConfig} {s : SchedState}
    {f : FrameInput} (hsm : s.inSafeMode = true)
    (hdue : attemptDue s f = true) :
    processEligible c s f =
      (applyPacing c f (mlPhase c s f (arrivalTime s f) true).1,
       (mlPhase c s f (arrivalTime s f) true).2) := by
  simp only [processEligible, hsm, hdue]
  simp

theorem processEligible_skip {c : SchedulerConfig} {s : SchedState}
    {f : FrameInput} (hsm : s.inSafeMode = true)
    (hdue : attemptDue s f = false) :
    processEligible c s f =
      (applyPacing c f (mlPhase c s f s.lastRecoveryCheck false).1,
       (if c.resCb then
          [Event.sysEnvelope .safeMode
            ("System in Safe Mode: " ++ reasonText s.safeModeReason)]
        else []) ++ (mlPhase c s f s.lastRecoveryCheck false).2) := by
  simp only [processEligible, hsm, hdue]
  simp

theorem mlPhase_noRun {c : SchedulerConfig} {s : SchedState} {f : FrameInput}
    {lrc : ℚ} {b : Bool} (h : (c.hasMl && b) = false) :
    mlPhase c s f lrc b =
      ({ s with
          clock := arrivalTime s f + (if 0 < c.simDelay then c.simDelay else 0),
          startTime := alignedStart s f, lastRecoveryCheck := lrc }, []) := by
  simp only [mlPhase, h]
  rw [if_neg (by simp)]
  split <;> rename_i hs
  · rfl
  · rw [add_zero]

theorem mlPhase_success {c : SchedulerConfig} {s : SchedState} {f : FrameInput}
    {lrc : ℚ} {b : Bool} {dur : ℚ} {p : Nat}
    (h : (c.hasMl && b) = true) (hml : f.ml = .success dur p) :
    mlPhase c s f lrc b =
      ({ clock := arrivalTime s f + dur, startTime := alignedStart s f,
         inSafeMode := false,
         safeModeReason := if s.inSafeMode then none else s.safeModeReason,
         lastRecoveryCheck := lrc },
       Event.mlCall f.fid (arrivalTime s f) s.inSafeMode ::
         ((if s.inSafeMode && c.resCb then
             [Event.sysEnvelope .recovered "System recovered"] else []) ++
          (if c.resCb then [Event.dataEnvelope f.fid p] else []))) := by
  simp only [mlPhase, h, hml]
  simp

theorem mlPhase_failure_normal {c : SchedulerConfig} {s : SchedState}
    {f : FrameInput} {lrc : ℚ} {b : Bool} {dur : ℚ} {reason : String}
    (h : (c.hasMl && b) = true) (hml : f.ml = .failure dur reason)
    (hsm : s.inSafeMode = false) :
    mlPhase c s f lrc b =
      ({ clock := arrivalTime s f + dur, startTime := alignedStart s f,
         inSafeMode := true, safeModeReason := some reason,
         lastRecoveryCheck := arrivalTime s f + dur },
       Event.mlCall f.fid (arrivalTime s f) false ::
         (if c.resCb then [Event.sysEnvelope .safeMode reason] else [])) := by
  simp only [mlPhase, h, hml, hsm]
  simp

theorem mlPhase_failure_safe {c : SchedulerConfig} {s : SchedState}
    {f : FrameInput} {lrc : ℚ} {b : Bool} {dur : ℚ} {reason : String}
    (h : (c.hasMl && b) = true) (hml : f.ml = .failure dur reason)
    (hsm : s.inSafeMode = true) :
    mlPhase c s f lrc b =
      ({ clock := arrivalTime s f + dur, startTime := alignedStart s f,
         inSafeMode := true, safeModeReason := s.safeModeReason,
         lastRecoveryCheck := lrc },
       [Event.mlCall f.fid (arrivalTime s f) true]) := by
  simp only [mlPhase, h, hml, hsm]
  simp

theorem applyPacing_fields (c : SchedulerConfig) (f : FrameInput)
    (s1 : SchedState) :
    (applyPacing c f s1).inSafeMode = s1.inSafeMode ∧
    (applyPacing c f s1).safeModeReason = s1.safeModeReason ∧
    (applyPacing c f s1).lastRecoveryCheck = s1.lastRecoveryCheck ∧
    (applyPacing c f s1).startTime = s1.startTime ∧
    s1.clock ≤ (applyPacing c f s1).clock := by
  simp only [applyPacing]
  split
  · refine ⟨rfl, rfl, rfl, rfl, ?_⟩
    simp only []
    linarith [ (by assumption :
      (0:ℚ) < ((f.fid : ℚ) + 1) * c.frameInterval - (s1.clock - s1.startTime)) ]
  · exact ⟨rfl, rfl, rfl, rfl, le_refl _⟩

theorem rawIds_append (l1 l2 : List Event) :
    rawIds (l1 ++ l2) = rawIds l1 ++ rawIds l2 :=
  List.filterMap_append l1 l2 _

theorem rawIds_mlPhase (c : SchedulerConfig) (s : SchedState) (f : FrameInput)
    (lrc : ℚ) (b : Bool) : rawIds (mlPhase c s f lrc b).2 = [] := by
  cases hrun : (c.hasMl && b) with
  | false =>
      rw [mlPhase_noRun hrun]
      simp [rawIds]
  | true =>
      rcases hml : f.ml with ⟨dur, p⟩ | ⟨dur, r⟩
      · rw [mlPhase_success hrun hml]
        split_ifs <;> simp [rawIds]
      · cases hsm : s.inSafeMode with
        | true =>
            rw [mlPhase_failure_safe hrun hml hsm]
            simp [rawIds]
        | false =>
            rw [mlPhase_failure_normal hrun hml hsm]
            split_ifs <;> simp [rawIds]

theorem rawIds_processEligible (c : SchedulerConfig) (s : SchedState)
    (f : FrameInput) : rawIds (processEligible c s f).2 = [] := by
  cases hsm : s.inSafeMode with
  | false =>
      rw [processEligible_normal hsm]
      exact rawIds_mlPhase c s f s.lastRecoveryCheck true
  | true =>
      cases hdue : attemptDue s f with
      | true =>
          rw [processEligible_attempt hsm hdue]
          exact rawIds_mlPhase c s f (arrivalTime s f) true
      | false =>
          rw [processEligible_skip hsm hdue, rawIds_append,
            rawIds_mlPhase]
          split_ifs <;> simp [rawIds]

theorem rawIds_step (c : SchedulerConfig) (s : SchedState) (f : FrameInput) :
    rawIds (stepFrame c s f).2 = if c.rawCb then [f.fid] else [] := by
  by_cases hd : c.frameInterval < driftOf c s f
  · rw [stepFrame_drop hd]
    rw [rawIds_append]
    split_ifs <;> simp [rawIds]
  · rw [stepFrame_eligible hd]
    rw [rawIds_append, rawIds_processEligible]
    split_ifs <;> simp [rawIds]

theorem rawIds_runFrames (c : SchedulerConfig) (frames : List FrameInput) :
    ∀ s : SchedState, c.rawCb = true →
      rawIds (runFrames c s frames).2 = frames.map FrameInput.fid := by
  induction frames with
  | nil =>
      intro s _
      simp [runFrames, rawIds]
  | cons f fs ih =>
      intro s h
      simp only [runFrames]
      rw [rawIds_append, rawIds_step, ih _ h, if_pos h]
      simp

/-- C2: with a raw callback configured, the scheduler hands every frame the
source yields to the raw sink exactly once, in read order; when the
sequence_ids are strictly increasing the delivered ids are strictly
increasing as well (no duplication, no reordering), regardless of inference
outcome (frames may carry any success or failure outcome). -/
theorem c2_raw_sink_exactly_once_in_order (c : SchedulerConfig) (t0 : ℚ)
    (frames : List FrameInput) (hraw : c.rawCb = true)
    (hinc : (frames.map FrameInput.fid).Pairwise (· < ·)) :
    rawIds (runScheduler c t0 frames).2 = frames.map FrameInput.fid ∧
    (rawIds (runScheduler c t0 frames).2).Pairwise (· < ·) := by
  have h : rawIds (runScheduler c t0 frames).2 = frames.map FrameInput.fid :=
    rawIds_runFrames c frames (initState t0) hraw
  exact ⟨h, h ▸ hinc⟩

/-- Witness for C2 on a concrete run containing a success, a failure and a
drift-dropped frame. -/
theorem c2_raw_sink_exactly_once_in_order_witness :
    rawIds (runScheduler cW 0 framesW2).2 = [0, 1, 2] ∧
    (rawIds (runScheduler cW 0 framesW2).2).Pairwise (· < ·) := by
  have h := c2_raw_sink_exactly_once_in_order cW 0 framesW2 rfl (by decide)
  simpa [framesW2] using h

theorem mem_dropIds (evs : List Event) (i : Nat) :
    i ∈ dropIds evs ↔ Event.droppedFromMl i ∈ evs := by
  simp only [dropIds, List.mem_filterMap]
  constructor
  · rintro ⟨a, ha, hfa⟩
    cases a <;> simp_all
  · intro h
    exact ⟨_, h, rfl⟩

theorem mem_mlCalls (evs : List Event) (i : Nat) (t : ℚ) (b : Bool) :
    (i, t, b) ∈ mlCalls evs ↔ Event.mlCall i t b ∈ evs := by
  simp only [mlCalls, List.mem_filterMap]
  constructor
  · rintro ⟨a, ha, hfa⟩
    cases a <;> simp_all
  · intro h
    exact ⟨_, h, rfl⟩

theorem dropIds_append (l1 l2 : List Event) :
    dropIds (l1 ++ l2) = dropIds l1 ++ dropIds l2 :=
  List.filterMap_append l1 l2 _

theorem mlCalls_append (l1 l2 : List Event) :
    mlCalls (l1 ++ l2) = mlCalls l1 ++ mlCalls l2 :=
  List.filterMap_append l1 l2 _

theorem mlCalls_mlPhase (c : SchedulerConfig) (s : SchedState) (f : FrameInput)
    (lrc : ℚ) (b : Bool) :
    mlCalls (mlPhase c s f lrc b).2 =
      if c.hasMl && b then [(f.fid, arrivalTime s f, s.inSafeMode)] else [] := by
  cases hrun : (c.hasMl && b) with
  | false =>
      rw [mlPhase_noRun hrun]
      simp [mlCalls]
  | true =>
      rcases hml : f.ml with ⟨dur, p⟩ | ⟨dur, r⟩
      · rw [mlPhase_success hrun hml]
        split_ifs <;> simp_all [mlCalls]
      · cases hsm : s.inSafeMode with
        | true =>
            rw [mlPhase_failure_safe hrun hml hsm]
            simp [mlCalls, hsm]
        | false =>
            rw [mlPhase_failure_normal hrun hml hsm]
            split_ifs <;> simp_all [mlCalls, hsm]

theorem dropIds_mlPhase (c : SchedulerConfig) (s : SchedState) (f : FrameInput)
    (lrc : ℚ) (b : Bool) : dropIds (mlPhase c s f lrc b).2 = [] := by
  cases hrun : (c.hasMl && b) with
  | false =>
      rw [mlPhase_noRun hrun]
      simp [dropIds]
  | true =>
      rcases hml : f.ml with ⟨dur, p⟩ | ⟨dur, r⟩
      · rw [mlPhase_success hrun hml]
        split_ifs <;> simp [dropIds]
      · cases hsm : s.inSafeMode with
        | true =>
            rw [mlPhase_failure_safe hrun hml hsm]
            simp [dropIds]
        | false =>
            rw [mlPhase_failure_normal hrun hml hsm]
            split_ifs <;> simp [dropIds]

theorem mlCalls_processEligible (c : SchedulerConfig) (s : SchedState)
    (f : FrameInput) :
    mlCalls (processEligible c s f).2 =
      if c.hasMl && (if s.inSafeMode then attemptDue s f else true) then
        [(f.fid, arrivalTime s f, s.inSafeMode)]
      else [] := by
  cases hsm : s.inSafeMode with
  | false =>
      rw [processEligible_normal hsm, mlCalls_mlPhase, hsm]
      simp
  | true =>
      cases hdue : attemptDue s f with
      | true =>
          rw [processEligible_attempt hsm hdue, mlCalls_mlPhase, hsm]
          simp
      | false =>
          rw [processEligible_skip hsm hdue, mlCalls_append, mlCalls_mlPhase,
            hsm]
          split_ifs <;> simp_all [mlCalls]

theorem dropIds_processEligible (c : SchedulerConfig) (s : SchedState)
    (f : FrameInput) : dropIds (processEligible c s f).2 = [] := by
  cases hsm : s.inSafeMode with
  | false =>
      rw [processEligible_normal hsm]
      rw [dropIds_mlPhase]
  | true =>
      cases hdue : attemptDue s f with
      | true =>
          rw [processEligible_attempt hsm hdue]
          rw [dropIds_mlPhase]
      | false =>
          rw [processEligible_skip hsm hdue, dropIds_append, dropIds_mlPhase]
          split_ifs <;> simp [dropIds]

theorem dropIds_step (c : SchedulerConfig) (s : SchedState) (f : FrameInput) :
    dropIds (stepFrame c s f).2 =
      if c.frameInterval < driftOf c s f then [f.fid] else [] := by
  by_cases hd : c.frameInterval < driftOf c s f
  · rw [stepFrame_drop hd, dropIds_append, if_pos hd]
    split_ifs <;> simp [dropIds]
  · rw [stepFrame_eligible hd, dropIds_append, dropIds_processEligible,
      if_neg hd]
    split_ifs <;> simp [dropIds]

theorem mlCalls_step (c : SchedulerConfig) (s : SchedState) (f : FrameInput) :
    mlCalls (stepFrame c s f).2 =
      if c.frameInterval < driftOf c s f then []
      else if c.hasMl && (if s.inSafeMode then attemptDue s f else true) then
        [(f.fid, arrivalTime s f, s.inSafeMode)]
      else [] := by
  by_cases hd : c.frameInterval < driftOf c s f
  · rw [stepFrame_drop hd, mlCalls_append, if_pos hd]
    split_ifs <;> simp [mlCalls]
  · rw [stepFrame_eligible hd, mlCalls_append, mlCalls_processEligible,
      if_neg hd]
    split_ifs <;> simp [mlCalls]

/-- C8: a frame whose drift exceeds frame_interval is dropped from inference
eligibility only: the DROPPED_FROM_ML event occurs exactly when drift exceeds
frame_interval, raw emission happens either way, no inference call is made
for a drift-dropped frame, and a frame whose drift is at most frame_interval
remains inference-eligible (in normal operation with an ML module it is
actually sent to inference). -/
theorem c8_drift_drop_ml_only (c : SchedulerConfig) (s : SchedState)
    (f : FrameInput) :
    (Event.droppedFromMl f.fid ∈ (stepFrame c s f).2 ↔
      c.frameInterval < driftOf c s f) ∧
    (c.rawCb = true →
      Event.rawEmit f.fid (arrivalTime s f) ∈ (stepFrame c s f).2) ∧
    (c.frameInterval < driftOf c s f →
      ∀ (i : Nat) (t : ℚ) (b : Bool),
        Event.mlCall i t b ∉ (stepFrame c s f).2) ∧
    (¬ c.frameInterval < driftOf c s f → s.inSafeMode = false →
      c.hasMl = true →
      Event.mlCall f.fid (arrivalTime s f) false ∈ (stepFrame c s f).2) := by
  refine ⟨?_, ?_, ?_, ?_⟩
  · rw [← mem_dropIds, dropIds_step]
    split_ifs with hd <;> simp [hd]
  · intro hraw
    by_cases hd : c.frameInterval < driftOf c s f
    · rw [stepFrame_drop hd, if_pos hraw]
      simp
    · rw [stepFrame_eligible hd, if_pos hraw]
      simp
  · intro hd i t b
    rw [← mem_mlCalls, mlCalls_step, if_pos hd]
    simp
  · intro hd hsm hml
    rw [← mem_mlCalls, mlCalls_step, if_neg hd, hsm]
    simp [hml, hsm]

/-- Witness for C8: a frame nine seconds behind schedule is drift-dropped. -/
theorem c8_drift_drop_ml_only_witness :
    Event.droppedFromMl 1 ∈
      (stepFrame cW ⟨10, 0, false, none, 0⟩ ⟨1, 0, .success 0 0⟩).2 :=
  (c8_drift_drop_ml_only cW ⟨10, 0, false, none, 0⟩ ⟨1, 0, .success 0 0⟩).1.mpr
    (by norm_num [cW, driftOf, arrivalTime, alignedStart,
      SchedulerConfig.frameInterval])

theorem applyPacing_inSafeMode (c : SchedulerConfig) (f : FrameInput)
    (s1 : SchedState) : (applyPacing c f s1).inSafeMode = s1.inSafeMode :=
  (applyPacing_fields c f s1).1

theorem applyPacing_reason (c : SchedulerConfig) (f : FrameInput)
    (s1 : SchedState) :
    (applyPacing c f s1).safeModeReason = s1.safeModeReason :=
  (applyPacing_fields c f s1).2.1

theorem applyPacing_lrc (c : SchedulerConfig) (f : FrameInput)
    (s1 : SchedState) :
    (applyPacing c f s1).lastRecoveryCheck = s1.lastRecoveryCheck :=
  (applyPacing_fields c f s1).2.2.1

theorem applyPacing_clock_ge (c : SchedulerConfig) (f : FrameInput)
    (s1 : SchedState) : s1.clock ≤ (applyPacing c f s1).clock :=
  (applyPacing_fields c f s1).2.2.2.2

theorem sysCount_append (st : SysStatus) (l1 l2 : List Event) :
    sysCount st (l1 ++ l2) = sysCount st l1 + sysCount st l2 := by
  simp [sysCount]

/-- C5: the first inference failure in normal operation enters Safe-Mode,
records the failure reason and the recovery timestamp
(last_recovery_check = the time the failing call returned), emits exactly one
System envelope with status safe_mode and no recovered envelope, and the loop
keeps going (stepFrame is total); a failure while Safe-Mode is already active
emits no System envelope at all, so entry is idempotent. -/
theorem c5_safe_mode_entry_idempotent :
    (∀ (c : SchedulerConfig) (s : SchedState) (f : FrameInput) (dur : ℚ)
        (reason : String),
      c.hasMl = true → c.resCb = true → s.inSafeMode = false →
      f.ml = .failure dur reason → ¬ c.frameInterval < driftOf c s f →
      ((stepFrame c s f).1.inSafeMode = true ∧
       (stepFrame c s f).1.safeModeReason = some reason ∧
       (stepFrame c s f).1.lastRecoveryCheck = arrivalTime s f + dur ∧
       sysCount .safeMode (stepFrame c s f).2 = 1 ∧
       sysCount .recovered (stepFrame c s f).2 = 0)) ∧
    (∀ (c : SchedulerConfig) (s : SchedState) (f : FrameInput) (dur : ℚ)
        (reason : String),
      c.hasMl = true → s.inSafeMode = true → f.ml = .failure dur reason →
      ¬ c.frameInterval < driftOf c s f → attemptDue s f = true →
      sysCount .safeMode (stepFrame c s f).2 = 0 ∧
      sysCount .recovered (stepFrame c s f).2 = 0) := by
  constructor
  · intro c s f dur reason hMl hRes hsm hml hd
    have hrun : (c.hasMl && true) = true := by rw [hMl]; rfl
    rw [stepFrame_eligible hd, processEligible_normal hsm,
      mlPhase_failure_normal hrun hml hsm]
    refine ⟨?_, ?_, ?_, ?_, ?_⟩
    · rw [applyPacing_inSafeMode]
    · rw [applyPacing_reason]
    · rw [applyPacing_lrc]
    · cases hraw : c.rawCb <;> simp [sysCount, hRes]
    · cases hraw : c.rawCb <;> simp [sysCount, hRes]
  · intro c s f dur reason hMl hsm hml hd hdue
    have hrun : (c.hasMl && true) = true := by rw [hMl]; rfl
    rw [stepFrame_eligible hd, processEligible_attempt hsm hdue,
      mlPhase_failure_safe hrun hml hsm]
    constructor
    · cases hraw : c.rawCb <;> simp [sysCount]
    · cases hraw : c.rawCb <;> simp [sysCount]

/-- Witness for C5 at a concrete first failure. -/
theorem c5_safe_mode_entry_idempotent_witness :
    (stepFrame cW (initState 0) fEntry).1.inSafeMode = true ∧
    (stepFrame cW (initState 0) fEntry).1.safeModeReason = some "boom" ∧
    (stepFrame cW (initState 0) fEntry).1.lastRecoveryCheck =
      arrivalTime (initState 0) fEntry + 0 ∧
    sysCount .safeMode (stepFrame cW (initState 0) fEntry).2 = 1 ∧
    sysCount .recovered (stepFrame cW (initState 0) fEntry).2 = 0 :=
  c5_safe_mode_entry_idempotent.1 cW (initState 0) fEntry 0 "boom" rfl rfl rfl
    rfl
    (by norm_num [cW, fEntry, driftOf, arrivalTime, alignedStart, initState,
      SchedulerConfig.frameInterval])

/-- C6: with Safe-Mode active (after any number of failures), one successful
inference call made at a permitted recovery attempt switches Safe-Mode off,
clears the reason and emits exactly one System envelope with status
recovered; the state reads inactive immediately after. -/
theorem c6_recovery_single_envelope (c : SchedulerConfig) (s : SchedState)
    (f : FrameInput) (dur : ℚ) (p : Nat)
    (hMl : c.hasMl = true) (hRes : c.resCb = true)
    (hsm : s.inSafeMode = true) (hml : f.ml = .success dur p)
    (hd : ¬ c.frameInterval < driftOf c s f)
    (hdue : attemptDue s f = true) :
    (stepFrame c s f).1.inSafeMode = false ∧
    (stepFrame c s f).1.safeModeReason = none ∧
    sysCount .recovered (stepFrame c s f).2 = 1 ∧
    sysCount .safeMode (stepFrame c s f).2 = 0 := by
  have hrun : (c.hasMl && true) = true := by rw [hMl]; rfl
  rw [stepFrame_eligible hd, processEligible_attempt hsm hdue,
    mlPhase_success hrun hml]
  refine ⟨?_, ?_, ?_, ?_⟩
  · rw [applyPacing_inSafeMode]
  · rw [applyPacing_reason]
    simp [hsm]
  · cases hraw : c.rawCb <;> simp [sysCount, hRes, hsm]
  · cases hraw : c.rawCb <;> simp [sysCount, hRes, hsm]

/-- Witness for C6 at a concrete recovery. -/
theorem c6_recovery_single_envelope_witness :
    (stepFrame cW sRec fRec).1.inSafeMode = false ∧
    (stepFrame cW sRec fRec).1.safeModeReason = none ∧
    sysCount .recovered (stepFrame cW sRec fRec).2 = 1 ∧
    sysCount .safeMode (stepFrame cW sRec fRec).2 = 0 :=
  c6_recovery_single_envelope cW sRec fRec 0 5 rfl rfl rfl rfl
    (by norm_num [cW, sRec, fRec, driftOf, arrivalTime, alignedStart,
      SchedulerConfig.frameInterval])
    (by simp [attemptDue, arrivalTime, recoveryInterval, sRec, fRec]
        norm_num)

/-- C9 (amended): a failure during a recovery attempt while Safe-Mode is
already active leaves the stored reason unchanged (the entry reason is
retained); Safe-Mode stays active. -/
theorem c9_reason_retained_amended (c : SchedulerConfig) (s : SchedState)
    (f : FrameInput) (dur : ℚ) (reason : String)
    (hMl : c.hasMl = true) (hsm : s.inSafeMode = true)
    (hml : f.ml = .failure dur reason)
    (hd : ¬ c.frameInterval < driftOf c s f)
    (hdue : attemptDue s f = true) :
    (stepFrame c s f).1.safeModeReason = s.safeModeReason ∧
    (stepFrame c s f).1.inSafeMode = true := by
  have hrun : (c.hasMl && true) = true := by rw [hMl]; rfl
  rw [stepFrame_eligible hd, processEligible_attempt hsm hdue,
    mlPhase_failure_safe hrun hml hsm]
  constructor
  · rw [applyPacing_reason]
  · rw [applyPacing_inSafeMode]

/-- Witness for the amended C9 at a concrete failing recovery attempt. -/
theorem c9_reason_retained_amended_witness :
    (stepFrame cW sRec fFailB).1.safeModeReason = some "boom" ∧
    (stepFrame cW sRec fFailB).1.inSafeMode = true :=
  c9_reason_retained_amended cW sRec fFailB 0 "B" rfl rfl rfl
    (by norm_num [cW, sRec, fFailB, driftOf, arrivalTime, alignedStart,
      SchedulerConfig.frameInterval])
    (by simp [attemptDue, arrivalTime, recoveryInterval, sRec, fFailB]
        norm_num)

/-- C9 counterexample: at target FPS 1, entering Safe-Mode with reason A at
frame 0 and failing the permitted recovery attempt at frame 5 with reason B
leaves the stored reason at A: the reason string is not updated by a failure
while Safe-Mode is already active. -/
theorem c9_reason_not_updated_counterexample :
    Event.mlCall 5 5 true ∈ (runScheduler cW 0 framesC9).2 ∧
    (runScheduler cW 0 framesC9).1.inSafeMode = true ∧
    (runScheduler cW 0 framesC9).1.safeModeReason = some "A" := by
  norm_num [runScheduler, runFrames, stepFrame, processEligible, mlPhase,
    applyPacing, arrivalTime, alignedStart, driftOf, attemptDue,
    recoveryInterval, reasonText, SchedulerConfig.frameInterval, initState,
    cW, framesC9]

/-- C1: evaluation of the code at the failing input.  At target FPS 1 with a
single inference call that takes 3 seconds (longer than frame_interval = 1),
frame 1 is handed to the raw callback at time 3, while its expected emit time
is start_time + 1 * frame_interval = 1: the delivery timestamp misses the
expected pacing by 2, more than one frame_interval, because the scheduler
runs inference synchronously inside the delivery loop. -/
theorem c1_blocking_inference_delays_raw :
    Event.rawEmit 1 3 ∈ (runScheduler cW 0 framesC1).2 ∧
    cW.frameInterval < (3 : ℚ) - (0 + 1 * cW.frameInterval) ∧
    cW.frameInterval < (3 : ℚ) := by
  refine ⟨?_, ?_, ?_⟩
  · norm_num [runScheduler, runFrames, stepFrame, processEligible, mlPhase,
      applyPacing, arrivalTime, alignedStart, driftOf, attemptDue,
      recoveryInterval, reasonText, SchedulerConfig.frameInterval, initState,
      cW, framesC1]
  · norm_num [cW, SchedulerConfig.frameInterval]
  · norm_num [cW, SchedulerConfig.frameInterval]

theorem safeCallTimes_append (l1 l2 : List Event) :
    safeCallTimes (l1 ++ l2) = safeCallTimes l1 ++ safeCallTimes l2 :=
  List.filterMap_append l1 l2 _

theorem safeCallTimes_eq (evs : List Event) :
    safeCallTimes evs = (mlCalls evs).filterMap
      (fun x => if x.2.2 = true then some x.2.1 else none) := by
  unfold safeCallTimes mlCalls
  induction evs with
  | nil => rfl
  | cons e tl ih =>
      cases e with
      | mlCall i t b => cases b <;> simp [List.filterMap_cons, ih]
      | rawEmit i t => simp [List.filterMap_cons, ih]
      | droppedFromMl i => simp [List.filterMap_cons, ih]
      | sysEnvelope st m => simp [List.filterMap_cons, ih]
      | dataEnvelope i p => simp [List.filterMap_cons, ih]

theorem safeCallTimes_step (c : SchedulerConfig) (s : SchedState)
    (f : FrameInput) :
    safeCallTimes (stepFrame c s f).2 =
      if ¬ c.frameInterval < driftOf c s f ∧ s.inSafeMode = true ∧
          c.hasMl = true ∧ attemptDue s f = true
      then [arrivalTime s f] else [] := by
  rw [safeCallTimes_eq, mlCalls_step]
  by_cases hd : c.frameInterval < driftOf c s f
  · simp [hd]
  · cases hsm : s.inSafeMode <;> cases hdue : attemptDue s f <;>
      split_ifs <;> simp_all

theorem applyPacing_inv (c : SchedulerConfig) (f : FrameInput)
    (s1 : SchedState) (h : s1.lastRecoveryCheck ≤ s1.clock) :
    (applyPacing c f s1).lastRecoveryCheck ≤ (applyPacing c f s1).clock := by
  rw [applyPacing_lrc]
  exact le_trans h (applyPacing_clock_ge c f s1)

theorem stepFrame_safe_inv (c : SchedulerConfig) (s : SchedState)
    (f : FrameInput) (h0 : s.lastRecoveryCheck ≤ s.clock)
    (hrd : 0 ≤ f.readDelay) (hdur : 0 ≤ f.ml.duration)
    (hsim : 0 ≤ c.simDelay) :
    (stepFrame c s f).1.lastRecoveryCheck ≤ (stepFrame c s f).1.clock ∧
    s.lastRecoveryCheck ≤ (stepFrame c s f).1.lastRecoveryCheck ∧
    ∀ u ∈ safeCallTimes (stepFrame c s f).2,
      s.lastRecoveryCheck + recoveryInterval ≤ u ∧
      u ≤ (stepFrame c s f).1.lastRecoveryCheck := by
  have hT : s.clock ≤ arrivalTime s f := by
    unfold arrivalTime
    linarith
  have hite : (0 : ℚ) ≤ if 0 < c.simDelay then c.simDelay else 0 := by
    split_ifs with h
    · linarith
    · linarith
  by_cases hd : c.frameInterval < driftOf c s f
  · rw [stepFrame_drop hd]
    refine ⟨le_trans h0 hT, le_refl _, ?_⟩
    intro u hu
    cases hraw : c.rawCb <;> simp [hraw, safeCallTimes] at hu
  · rw [stepFrame_eligible hd]
    cases hsm : s.inSafeMode with
    | false =>
        rw [processEligible_normal hsm]
        cases hrun : (c.hasMl && true) with
        | false =>
            rw [mlPhase_noRun hrun]
            refine ⟨applyPacing_inv _ _ _ (by simp; linarith), ?_, ?_⟩
            · rw [applyPacing_lrc]
            · intro u hu
              cases hraw : c.rawCb <;> simp [hraw, safeCallTimes] at hu
        | true =>
            rcases hml : f.ml with ⟨dur, p⟩ | ⟨dur, r⟩
            · have hdur2 : 0 ≤ dur := by
                rw [hml] at hdur
                exact hdur
              rw [mlPhase_success hrun hml]
              refine ⟨applyPacing_inv _ _ _ (by simp; linarith), ?_, ?_⟩
              · rw [applyPacing_lrc]
              · intro u hu
                cases hraw : c.rawCb <;> cases hres : c.resCb <;>
                  simp [hraw, hres, hsm, safeCallTimes] at hu
            · have hdur2 : 0 ≤ dur := by
                rw [hml] at hdur
                exact hdur
              rw [mlPhase_failure_normal hrun hml hsm]
              refine ⟨applyPacing_inv _ _ _ (by simp), ?_, ?_⟩
              · rw [applyPacing_lrc]
                simp
                linarith
              · intro u hu
                cases hraw : c.rawCb <;> cases hres : c.resCb <;>
                  simp [hraw, hres, safeCallTimes] at hu
    | true =>
        cases hdue : attemptDue s f with
        | true =>
            have h5 : recoveryInterval ≤ arrivalTime s f - s.lastRecoveryCheck :=
              of_decide_eq_true hdue
            rw [processEligible_attempt hsm hdue]
            cases hrun : (c.hasMl && true) with
            | false =>
                rw [mlPhase_noRun hrun]
                refine ⟨applyPacing_inv _ _ _ (by simp; linarith), ?_, ?_⟩
                · rw [applyPacing_lrc]
                  simp
                  linarith
                · intro u hu
                  cases hraw : c.rawCb <;> simp [hraw, safeCallTimes] at hu
            | true =>
                rcases hml : f.ml with ⟨dur, p⟩ | ⟨dur, r⟩
                · have hdur2 : 0 ≤ dur := by
                    rw [hml] at hdur
                    exact hdur
                  rw [mlPhase_success hrun hml]
                  refine ⟨applyPacing_inv _ _ _ (by simp; linarith), ?_, ?_⟩
                  · rw [applyPacing_lrc]
                    simp
                    linarith
                  · intro u hu
                    cases hraw : c.rawCb <;> cases hres : c.resCb <;>
                      simp [hraw, hres, hsm, safeCallTimes] at hu <;>
                      subst hu <;>
                      exact ⟨by linarith, by rw [applyPacing_lrc]⟩
                · have hdur2 : 0 ≤ dur := by
                    rw [hml] at hdur
                    exact hdur
                  rw [mlPhase_failure_safe hrun hml hsm]
                  refine ⟨applyPacing_inv _ _ _ (by simp; linarith), ?_, ?_⟩
                  · rw [applyPacing_lrc]
                    simp
                    linarith
                  · intro u hu
                    cases hraw : c.rawCb <;>
                      simp [hraw, safeCallTimes] at hu <;>
                      subst hu <;>
                      exact ⟨by linarith, by rw [applyPacing_lrc]⟩
        | false =>
            rw [processEligible_skip hsm hdue]
            have hrun : (c.hasMl && false) = false := by simp
            rw [mlPhase_noRun hrun]
            refine ⟨applyPacing_inv _ _ _ (by simp; linarith), ?_, ?_⟩
            · rw [applyPacing_lrc]
            · intro u hu
              cases hraw : c.rawCb <;> cases hres : c.resCb <;>
                simp [hraw, hres, safeCallTimes] at hu

theorem runFrames_safe_inv (c : SchedulerConfig) (frames : List FrameInput) :
    ∀ s : SchedState, s.lastRecoveryCheck ≤ s.clock → 0 ≤ c.simDelay →
      (∀ f ∈ frames, 0 ≤ f.readDelay ∧ 0 ≤ f.ml.duration) →
      ((runFrames c s frames).1.lastRecoveryCheck ≤
        (runFrames c s frames).1.clock ∧
       s.lastRecoveryCheck ≤ (runFrames c s frames).1.lastRecoveryCheck ∧
       (∀ u ∈ safeCallTimes (runFrames c s frames).2,
          s.lastRecoveryCheck + recoveryInterval ≤ u ∧
          u ≤ (runFrames c s frames).1.lastRecoveryCheck) ∧
       (safeCallTimes (runFrames c s frames).2).Pairwise
         (fun a b => a + recoveryInterval ≤ b)) := by
  induction frames with
  | nil =>
      intro s h0 hsim hf
      refine ⟨h0, le_refl _, ?_, ?_⟩
      · intro u hu
        simp [runFrames, safeCallTimes] at hu
      · simp [runFrames, safeCallTimes]
  | cons f fs ih =>
      intro s h0 hsim hf
      have hff := hf f (List.mem_cons_self f fs)
      obtain ⟨hstep1, hstep2, hstep3⟩ :=
        stepFrame_safe_inv c s f h0 hff.1 hff.2 hsim
      obtain ⟨hr1, hr2, hr3, hr4⟩ :=
        ih (stepFrame c s f).1 hstep1 hsim
          (fun g hg => hf g (List.mem_cons_of_mem f hg))
      have hshape : runFrames c s (f :: fs) =
          ((runFrames c (stepFrame c s f).1 fs).1,
           (stepFrame c s f).2 ++ (runFrames c (stepFrame c s f).1 fs).2) :=
        rfl
      rw [hshape]
      refine ⟨hr1, le_trans hstep2 hr2, ?_, ?_⟩
      · intro u hu
        rw [safeCallTimes_append, List.mem_append] at hu
        rcases hu with hu | hu
        · obtain ⟨ha, hb⟩ := hstep3 u hu
          exact ⟨ha, le_trans hb hr2⟩
        · obtain ⟨ha, hb⟩ := hr3 u hu
          constructor
          · linarith
          · exact hb
      · rw [safeCallTimes_append]
        rw [List.pairwise_append]
        refine ⟨?_, hr4, ?_⟩
        · rw [safeCallTimes_step]
          split_ifs
          · exact List.pairwise_singleton _ _
          · exact List.Pairwise.nil
        · intro a ha b hb
          obtain ⟨_, ha2⟩ := hstep3 a ha
          obtain ⟨hb1, _⟩ := hr3 b hb
          linarith

/-- C7: Safe-Mode recovery attempts are rate limited.  First, over any run of
the scheduler (started at a nonnegative wall-clock time, with nonnegative
read delays and inference durations), the start times of any two inference
calls made while Safe-Mode was active are at least recovery_interval = 5
seconds apart.  Second, an inference-eligible frame arriving while Safe-Mode
is active before the recovery interval has elapsed triggers no inference call
and instead emits exactly one System envelope with status safe_mode. -/
theorem c7_recovery_rate_limited :
    (∀ (c : SchedulerConfig) (t0 : ℚ) (frames : List FrameInput),
      0 ≤ t0 → 0 ≤ c.simDelay →
      (∀ f ∈ frames, 0 ≤ f.readDelay ∧ 0 ≤ f.ml.duration) →
      (safeCallTimes (runScheduler c t0 frames).2).Pairwise
        (fun a b => a + recoveryInterval ≤ b)) ∧
    (∀ (c : SchedulerConfig) (s : SchedState) (f : FrameInput),
      s.inSafeMode = true → c.resCb = true →
      ¬ c.frameInterval < driftOf c s f → attemptDue s f = false →
      sysCount .safeMode (stepFrame c s f).2 = 1 ∧
      ∀ (i : Nat) (t : ℚ) (b : Bool),
        Event.mlCall i t b ∉ (stepFrame c s f).2) := by
  constructor
  · intro c t0 frames h0 hsim hf
    have hinit : (initState t0).lastRecoveryCheck ≤ (initState t0).clock := by
      simpa [initState] using h0
    exact (runFrames_safe_inv c frames (initState t0) hinit hsim hf).2.2.2
  · intro c s f hsm hres hd hdue
    constructor
    · rw [stepFrame_eligible hd, processEligible_skip hsm hdue,
        mlPhase_noRun (by simp : (c.hasMl && false) = false)]
      cases hraw : c.rawCb <;> simp [sysCount, hres, reasonText]
    · intro i t b
      rw [← mem_mlCalls, mlCalls_step, if_neg hd]
      simp [hsm, hdue]

/-- Witness for C7: on the concrete six-frame run entering Safe-Mode, the
sole permitted recovery attempt trivially satisfies the spacing bound, and a
concrete skipped frame emits one safe_mode envelope with no inference
call. -/
theorem c7_recovery_rate_limited_witness :
    (safeCallTimes (runScheduler cW 0 framesC9).2).Pairwise
      (fun a b => a + recoveryInterval ≤ b) ∧
    sysCount .safeMode (stepFrame cW ⟨1, 0, true, some "A", 0⟩
      ⟨1, 0, .failure 0 "X"⟩).2 = 1 := by
  constructor
  · refine c7_recovery_rate_limited.1 cW 0 framesC9 le_rfl ?_ ?_
    · norm_num [cW]
    · intro f hf
      simp only [framesC9, List.mem_cons, List.not_mem_nil, or_false] at hf
      rcases hf with rfl | rfl | rfl | rfl | rfl | rfl <;>
        exact ⟨le_rfl, le_rfl⟩
  · refine (c7_recovery_rate_limited.2 cW ⟨1, 0, true, some "A", 0⟩
      ⟨1, 0, .failure 0 "X"⟩ rfl rfl ?_ ?_).1
    · norm_num [cW, driftOf, arrivalTime, alignedStart,
        SchedulerConfig.frameInterval]
    · simp [attemptDue, arrivalTime, recoveryInterval]

/-- C3: the scheduler does not accept the shutdown signal it is constructed
with at startup.  main.py passes shutdown_event to FrameScheduler, but
FrameScheduler.__init__ declares no such parameter, so the construction at
startup is rejected (TypeError), and nothing in FrameScheduler.run reads a
shutdown signal (the loop model has no shutdown input at all). -/
theorem c3_shutdown_event_not_accepted :
    "shutdown_event" ∈ startupSchedulerKwargs ∧
    "shutdown_event" ∉ frameSchedulerInitParams ∧
    kwCallAccepted frameSchedulerInitParams startupSchedulerKwargs = false := by
  decide

/-- C4 counterexample: for a finite two-frame video the generator yields
exactly the two frames with ids 0 and 1 and then terminates the iteration at
end of video; it does not restart the sequence_id at 0 and keep yielding. -/
theorem c4_file_source_terminates_counterexample :
    RawVideoSource_read [⟨true, some 10⟩, ⟨true, some 11⟩, ⟨false, none⟩] =
      [(10, 0), (11, 1)] := by
  decide

theorem readLoop_ids (cap : List CapRead) :
    ∀ k : Nat, ∃ n, (readLoop cap k).map Prod.snd = List.range' k n := by
  induction cap with
  | nil =>
      intro k
      exact ⟨0, rfl⟩
  | cons r rest ih =>
      intro k
      by_cases hr : r.ret = false
      · refine ⟨0, ?_⟩
        simp only [readLoop]
        rw [if_pos hr]
        rfl
      · cases hf : r.frame with
        | none =>
            obtain ⟨n, hn⟩ := ih k
            refine ⟨n, ?_⟩
            simp only [readLoop]
            rw [if_neg hr, hf]
            exact hn
        | some d =>
            obtain ⟨n, hn⟩ := ih (k + 1)
            refine ⟨n + 1, ?_⟩
            simp only [readLoop]
            rw [if_neg hr, hf]
            simp [hn, List.range']

/-- C4 (amended): within one session the file source yields sequence_ids
0, 1, 2, ... consecutively with no gaps, for any capture content; on
reaching the end of the finite content the iteration terminates (it does not
restart at 0), as the counterexample shows. -/
theorem c4_sequence_ids_consecutive_amended (cap : List CapRead) :
    ∃ n, (RawVideoSource_read cap).map Prod.snd = List.range n := by
  obtain ⟨n, hn⟩ := readLoop_ids cap 0
  refine ⟨n, ?_⟩
  rw [RawVideoSource_read, hn, List.range_eq_range']

/-- C10: JalDrishtiEngine.infer is total: it is a plain function of the
frame and the pipeline outcome, and on every invalid frame (None, empty,
wrong dimension count, wrong channel count) and on every internal pipeline
exception it returns the safe response (state SAFE_MODE, empty detections,
max_confidence 0) paired with the input frame unchanged; consequently
MLService.run_inference can only raise when the engine failed to
initialize. -/
theorem c10_infer_total_safe_response :
    (∀ (frame : Option NDArray) (body : PipelineOutcome),
      ((validate_frame frame).1 = false →
        JalDrishtiEngine_infer frame body = (build_safe_response, frame)) ∧
      (body.isExc = true →
        JalDrishtiEngine_infer frame body = (build_safe_response, frame))) ∧
    build_safe_response.state = .SAFE_MODE ∧
    build_safe_response.detections = [] ∧
    build_safe_response.max_confidence = 0 ∧
    (validate_frame none).1 = false ∧
    (∀ a : NDArray, a.size = 0 → (validate_frame (some a)).1 = false) ∧
    (∀ a : NDArray, ¬ a.shape.length = 3 →
      (validate_frame (some a)).1 = false) ∧
    (∀ a : NDArray, ¬ a.shape.getD 2 0 = 3 →
      (validate_frame (some a)).1 = false) ∧
    (∀ (engine : Option Unit) (frame : Option NDArray)
        (body : PipelineOutcome) (e : String),
      MLService_run_inference engine frame body = .error e → engine = none) := by
  refine ⟨?_, rfl, rfl, rfl, rfl, ?_, ?_, ?_, ?_⟩
  · intro frame body
    constructor
    · intro h
      unfold JalDrishtiEngine_infer
      rw [if_pos h]
    · intro h
      by_cases hv : (validate_frame frame).1 = false
      · unfold JalDrishtiEngine_infer
        rw [if_pos hv]
      · unfold JalDrishtiEngine_infer
        rw [if_neg hv]
        cases body with
        | ok resp enhanced => simp [PipelineOutcome.isExc] at h
        | exc m => rfl
  · intro a h
    simp only [validate_frame]
    rw [if_pos h]
  · intro a h
    simp only [validate_frame]
    split_ifs <;> simp_all
  · intro a h
    simp only [validate_frame]
    split_ifs <;> simp_all
  · intro engine frame body e h
    cases engine with
    | none => rfl
    | some u => simp [MLService_run_inference] at h

/-- Witness for C10: a None frame with a raising pipeline body returns the
safe response with the frame unchanged. -/
theorem c10_infer_total_safe_response_witness :
    JalDrishtiEngine_infer none (.exc "cuda error") =
      (build_safe_response, none) :=
  (c10_infer_total_safe_response.1 none (.exc "cuda error")).2 rfl
